import Mathlib

/-
Verification development for the `sqlalchemy-repositories` data-access layer.

The development shallowly embeds the Python sources:
  * `src/database.py`      — `SqlAlchemyDb` (generic Connection Context),
  * `src/postgresql/database.py` — `PostgreSqlDb` and `PostgreSqlDbBuilder`,
  * `src/repositories.py`  — the six repository capability mixins.

Modelling conventions:
  * A mapped row / domain object is an attribute map `List (String × String)`;
    primary keys are the string rendering of the key value (Python formats the
    key with `str` in messages, and attribute access is by field name).
  * The database bound to a repository is a `World`: the rows of the one mapped
    table, a counter for fresh session ids, a counter for storage-generated
    keys, and a chronological trace of session lifecycle events.  The trace
    records session opens, closes and every session method call, so that the
    session-scoping contract (close on every exit path, no use after close,
    never close a caller-supplied session) is a decidable property of a run.
  * Every operation is a state transformer `World → Except PyErr α × World`:
    Python exceptions are `Except.error`; the state is kept on the error path
    because `try/finally` (the scoped-session context manager) still runs.
  * The ORM (SQLAlchemy) is an external collaborator consumed through a narrow
    interface; its calls (`query(...).get`, `query(...).all`, `add`, `add_all`,
    `commit`, `refresh`, `close`) are modelled as primitive state operations.
    Registration of pending objects and the flush performed by the immediately
    following `commit` are collapsed into one step, since every embedded
    operation commits (or raises) before its session is released.
  * Python calling conventions decide several behaviours and are embedded as
    the errors they provoke, each justified at its definition:
    `functools.partial(f, k := v)` called as `p(x)` passes `x` positionally
    *before* re-passing the stored keyword, so a collision raises `TypeError`
    at the call, and `Query.get` has the single positional parameter `ident`,
    so `get(pk=pk)` raises `TypeError` before any query runs.
-/

namespace SqlRepo

/-- Python-level exceptions raised by the embedded code.  The two
`pgBuilding` constructors are the two ways the single Python class
`PostgreSqlDbBuildingException` is instantiated (wrapping a cause, or carrying
the missing-fields message); `queryingException` is
`SqlAlchemyRepositoryQueryingException`; the rest are built-in Python /
SQLAlchemy errors surfaced unwrapped. -/
inductive PyErr where
  | typeError (msg : String)
  | attributeError (msg : String)
  | argumentError (msg : String)
  | unmappedInstanceError (msg : String)
  | queryingException (msg : String)
  | pgBuildingWrapped (cause : PyErr)
  | pgBuildingMissingFields (fields : List String)
  deriving DecidableEq, Repr

/-- Does the error belong to the domain-specific construction error kind
(`PostgreSqlDbBuildingException`)? -/
def PyErr.isConstructionError : PyErr → Bool
  | .pgBuildingWrapped _ => true
  | .pgBuildingMissingFields _ => true
  | _ => false

/-- A mapped domain object: attribute name ↦ value. -/
abbrev Row := List (String × String)

/-- Python `getattr` on a mapped object / `dict` lookup: first binding wins
(a Python object or dict has one binding per name). -/
def getAttr : Row → String → Option String
  | [], _ => none
  | (k, v) :: rest, f => if k = f then some v else getAttr rest f

/-- Python `setattr`: rebinds the existing attribute, or appends a new one. -/
def setAttr : Row → String → String → Row
  | [], f, v => [(f, v)]
  | (k, w) :: rest, f, v => if k = f then (f, v) :: rest else (k, w) :: setAttr rest f v

/-- Is the key bound in the dict?  (Python `key in dict`.) -/
def containsKey : Row → String → Bool
  | [], _ => false
  | (k, _) :: rest, f => k = f || containsKey rest f

/-- Python `dict.pop(key)`: removes the (unique) binding of the key. -/
def eraseKey : Row → String → Row
  | [], _ => []
  | (k, v) :: rest, f => if k = f then rest else (k, v) :: eraseKey rest f

/-- The `for field, value in update_values.items(): setattr(item, field, value)`
loop of `UpdateRepository._update_one` (src/repositories.py lines 202-203). -/
def applyFields : Row → List (String × String) → Row
  | r, [] => r
  | r, (f, v) :: rest => applyFields (setAttr r f v) rest

/-- A dict has one binding per key. -/
abbrev keysNodup (l : List (String × String)) : Prop := (l.map Prod.fst).Nodup

/-- The declarative model bound to a repository: its table name
(`self._model.__tablename__`) and the name of its single primary-key column
(`inspect(self._model).primary_key[0].name`). -/
structure Model where
  tableName : String
  pkField : String
  deriving DecidableEq, Repr

/-- Session lifecycle events, recorded chronologically:  `openS sid` when the
session factory produces session `sid`, `closeS sid` when `close()` runs on it,
and `useS sid op` for every other session method call (`op` names the call). -/
inductive Ev where
  | openS (sid : Nat)
  | closeS (sid : Nat)
  | useS (sid : Nat) (op : String)
  deriving DecidableEq, Repr

def Ev.isClose : Ev → Bool
  | .closeS _ => true
  | _ => false

def Ev.isOpen : Ev → Bool
  | .openS _ => true
  | _ => false

def isCloseOf (sid : Nat) : Ev → Bool
  | .closeS s => s == sid
  | _ => false

def isUseOf (sid : Nat) : Ev → Bool
  | .useS s _ => s == sid
  | _ => false

/-- A `commit()` call on any session. -/
def isCommitEv : Ev → Bool
  | .useS _ op => op == "commit"
  | _ => false

/-- The observable state of one bound database: the rows of the mapped table,
a fresh-session-id counter, the storage's generated-key counter, and the event
trace. -/
structure World where
  table : List Row
  nextSid : Nat
  nextAutoId : Nat
  trace : List Ev
  deriving DecidableEq, Repr

def World.emit (w : World) (e : Ev) : World :=
  ⟨w.table, w.nextSid, w.nextAutoId, w.trace ++ [e]⟩

def World.setTable (w : World) (t : List Row) : World :=
  ⟨t, w.nextSid, w.nextAutoId, w.trace⟩

/-- A fresh database state over the given table contents. -/
def World.init (tbl : List Row) : World := ⟨tbl, 0, 1, []⟩

/-- A repository / caller computation: state transformer that can raise.  The
state is returned on the error path as well, because `finally` blocks still
run while an exception propagates. -/
abbrev M (α : Type) : Type := World → Except PyErr α × World

/-- An open ORM session, identified by the id the factory gave it. -/
structure Session where
  sid : Nat
  deriving DecidableEq, Repr

/-- `SqlAlchemyDb.get_database_session` (src/database.py lines 62-73): a
`@contextmanager` that calls the session factory, yields the session to the
body, and closes it in a `finally` block — the close runs on normal return,
early return and raised error alike, and the body's outcome (value or
exception) is what the scope produces. -/
def withDatabaseSession (body : Session → M α) : M α := fun w =>
  let sid := w.nextSid
  let w1 : World := ⟨w.table, w.nextSid + 1, w.nextAutoId, w.trace ++ [Ev.openS sid]⟩
  let out := body ⟨sid⟩ w1
  (out.1, out.2.emit (.closeS sid))

/-- `session.query(model).get(ident)` under the model's primary key:
the first row whose primary-key attribute prints as `pk`. -/
def findRow (model : Model) : List Row → String → Option Row
  | [], _ => none
  | r :: rest, pk => if getAttr r model.pkField = some pk then some r else findRow model rest pk

/-- Replace the first row matching the primary key (the identity map writes the
mutated loaded object back to its row). -/
def replaceRow (model : Model) : List Row → String → Row → List Row
  | [], _, _ => []
  | r :: rest, pk, r' =>
      if getAttr r model.pkField = some pk then r' :: rest else r :: replaceRow model rest pk r'

/-- Storage-side insert of one object: a missing primary-key attribute is
populated from the storage's generated-key counter (the external database's
key generation, consumed through `refresh`). -/
def storeOne (model : Model) (r : Row) (w : World) : Row × World :=
  match getAttr r model.pkField with
  | some _ => (r, w.setTable (w.table ++ [r]))
  | none =>
      let r' := setAttr r model.pkField (toString w.nextAutoId)
      (r', ⟨w.table ++ [r'], w.nextSid, w.nextAutoId + 1, w.trace⟩)

/-- Storage-side insert of a collection, in order. -/
def storeAll (model : Model) : List Row → World → List Row × World
  | [], w => ([], w)
  | o :: rest, w =>
      let rw := storeOne model o w
      let rsw := storeAll model rest rw.2
      (rw.1 :: rsw.1, rsw.2)

/-- One `session.refresh(obj)` call per object of the collection
(`AddManyRepository._add_many`, src/repositories.py lines 139-141). -/
def refreshAll (s : Session) : List Row → World → World
  | [], w => w
  | _ :: rest, w => refreshAll s rest (w.emit (.useS s.sid "refresh"))

/-- `RetrieveRepository._retrieve` (src/repositories.py lines 50-56):
`session.query(self._model).get(pk)`, raising
`SqlAlchemyRepositoryQueryingException` with the formatted message when no row
matches, returning the row otherwise. -/
def retrieveInner (model : Model) (pk : String) (s : Session) : M Row := fun w =>
  let w := w.emit (.useS s.sid "query_get")
  match findRow model w.table pk with
  | none =>
      (.error (.queryingException ("No object with primary key " ++ pk ++
        ", exists on table " ++ model.tableName)), w)
  | some r => (.ok r, w)

/-- `RetrieveRepository.retrieve` (src/repositories.py lines 34-48).
With no session the scoped branch calls `func(session=session)` by keyword,
which composes with the stored keyword `pk=pk` of
`func = partial(self._retrieve, pk=pk)` and runs the body.
With a caller-supplied session, line 48 is `return func(session)`: `partial`
prepends no positionals, so the session is bound *positionally* to the first
parameter of `_retrieve` — which is `pk` — and the stored keyword `pk=pk` then
binds the same parameter again, so Python raises
`TypeError: _retrieve() got multiple values for argument 'pk'` at the call,
before the body or any session method runs. -/
def retrieve (model : Model) (pk : String) (sess : Option Session) : M Row :=
  match sess with
  | none => withDatabaseSession (fun s => retrieveInner model pk s)
  | some _ => fun w =>
      (.error (.typeError "_retrieve() got multiple values for argument 'pk'"), w)

/-- `ListRepository.list_all` (src/repositories.py lines 62-74).
With no session, the scoped branch runs `session.query(self._model).all()`
directly and returns every row.  With a caller-supplied session, line 74 is
`return self._list_all(session)` — but no class of the repository defines a
method `_list_all`, so the attribute lookup on `self` raises `AttributeError`
before any session method runs. -/
def list_all (model : Model) (sess : Option Session) : M (List Row) :=
  match sess with
  | none => withDatabaseSession (fun s => fun w =>
      let w := w.emit (.useS s.sid "query_all")
      (.ok w.table, w))
  | some _ => fun w =>
      (.error (.attributeError "object has no attribute, _list_all"), w)

/-- `AddOneRepository._add_one` (src/repositories.py lines 96-102):
`session.add(obj); session.commit(); session.refresh(obj); return obj`.
Unreachable from `add_one` (see `add_one`); kept as the translation of the
method body. -/
def addOneInner (model : Model) (obj : Row) (s : Session) : M Row := fun w =>
  let w := w.emit (.useS s.sid "add")
  let rw := storeOne model obj w
  let w := rw.2.emit (.useS s.sid "commit")
  let w := w.emit (.useS s.sid "refresh")
  (.ok rw.1, w)

/-- `AddOneRepository.add_one` (src/repositories.py lines 80-94).
`func = partial(self._add_one, obj=obj)` and *both* call sites (line 92 inside
the scoped `with` block, and line 94 for a caller-supplied session) invoke it
as `func(session)`: the session is bound positionally to `_add_one`'s first
parameter `obj`, which the stored keyword `obj=obj` binds again, so Python
raises `TypeError: _add_one() got multiple values for argument 'obj'` at the
call.  In the scoped branch the error is raised inside the `with` block, after
the session was opened, so the context manager still closes it. -/
def add_one (model : Model) (obj : Row) (sess : Option Session) : M Row :=
  match sess with
  | none => withDatabaseSession (fun _ => fun w =>
      (.error (.typeError "_add_one() got multiple values for argument 'obj'"), w))
  | some _ => fun w =>
      (.error (.typeError "_add_one() got multiple values for argument 'obj'"), w)

/-- `AddManyRepository._add_many` (src/repositories.py lines 131-143):
`session.add_all(objects); session.commit()` — one commit for the whole
collection — then, only when `with_return` is true, one `session.refresh(obj)`
per object and `return objects`; otherwise the implicit `return None`. -/
def addManyInner (model : Model) (objs : List Row) (withReturn : Bool) (s : Session) :
    M (Option (List Row)) := fun w =>
  let w := w.emit (.useS s.sid "add_all")
  let sw := storeAll model objs w
  let w := sw.2.emit (.useS s.sid "commit")
  if withReturn then
    (.ok (some sw.1), refreshAll s sw.1 w)
  else
    (.ok none, w)

/-- `AddManyRepository.add_many` (src/repositories.py lines 108-129):
both branches call `func(session=session)` by keyword, so the partial's stored
keywords compose correctly and the body runs — scoped when no session was
passed, directly on the caller's session otherwise. -/
def add_many (model : Model) (objs : List Row) (withReturn : Bool) (sess : Option Session) :
    M (Option (List Row)) :=
  match sess with
  | none => withDatabaseSession (fun s => addManyInner model objs withReturn s)
  | some s => addManyInner model objs withReturn s

/-- `DeleteOneRepository._delete_one` (src/repositories.py lines 165-168):
`session.query(self._model).get(pk=pk).delete(); session.commit()`.
`session.query(self._model)` evaluates first (a session method call); then
`.get(pk=pk)` raises `TypeError: get() got an unexpected keyword argument
'pk'` — `Query.get`'s one parameter is the positional `ident`, there is no
parameter named `pk`.  (Were the keyword fixed, `.get(pk)` returns a mapped
instance or `None`, neither of which defines a `delete` method, so the line
would still raise before deleting.)  The delete and the commit on line 168 are
therefore never reached and the table is never changed. -/
def deleteOneInner (model : Model) (pk : String) (s : Session) : M Unit := fun w =>
  let w := w.emit (.useS s.sid "query")
  (.error (.typeError "get() got an unexpected keyword argument, pk"), w)

/-- `DeleteOneRepository.delete_one` (src/repositories.py lines 149-163).
Both call sites use `func(session=session)` by keyword, so the partial
composes and `_delete_one` runs.  The scoped branch has no `return`: after the
`with` block the code falls through to line 163 and calls `func` again on the
now-closed session — the second call is modelled explicitly, and is reachable
only if the first call returned normally (it never does, because `_delete_one`
always raises, so the error propagates out of the `with` block instead). -/
def delete_one (model : Model) (pk : String) (sess : Option Session) : M Unit :=
  match sess with
  | some s => deleteOneInner model pk s
  | none => fun w =>
      let sid := w.nextSid
      let out := withDatabaseSession (fun s => deleteOneInner model pk s) w
      match out.1 with
      | .error e => (.error e, out.2)
      | .ok _ => deleteOneInner model pk ⟨sid⟩ out.2

/-- Lines 198-200 of `UpdateRepository._update_one`: look up the model's
primary-key field name and `update_values.pop(pk_field_name)` when present —
a pop on the very dict object the caller passed. -/
def popPk (model : Model) (uv : List (String × String)) : List (String × String) :=
  if containsKey uv model.pkField then eraseKey uv model.pkField else uv

/-- `UpdateRepository._update_one` (src/repositories.py lines 195-207):
load the object by primary key, pop the primary-key field from
`update_values`, apply every remaining field with `setattr`, commit, refresh,
return the item.  When no row matches, `item` is `None`: the pop still
happens, then the first `setattr(None, field, value)` raises
`AttributeError`; with no remaining fields the loop is empty, the commit runs,
and `session.refresh(None)` raises (an unmapped-instance error). -/
def updateOneInner (model : Model) (pk : String) (uv : List (String × String))
    (s : Session) : M Row := fun w =>
  let w := w.emit (.useS s.sid "query_get")
  let uv' := popPk model uv
  match findRow model w.table pk with
  | some r =>
      let r' := applyFields r uv'
      let w := w.setTable (replaceRow model w.table pk r')
      let w := w.emit (.useS s.sid "commit")
      let w := w.emit (.useS s.sid "refresh")
      (.ok r', w)
  | none =>
      match uv' with
      | (f, _) :: _ =>
          (.error (.attributeError ("NoneType object has no attribute " ++ f)), w)
      | [] =>
          let w := w.emit (.useS s.sid "commit")
          let w := w.emit (.useS s.sid "refresh")
          (.error (.unmappedInstanceError "None is not a mapped instance"), w)

/-- `UpdateRepository.update_one` (src/repositories.py lines 177-193):
both branches call `func(session=session)` by keyword, so the body runs —
scoped when no session was passed, directly on the caller's session
otherwise. -/
def update_one (model : Model) (pk : String) (uv : List (String × String))
    (sess : Option Session) : M Row :=
  match sess with
  | none => withDatabaseSession (fun s => updateOneInner model pk uv s)
  | some s => updateOneInner model pk uv s

/-- The state of the caller's `update_values` dict after `update_one`
returns or raises.  Python passes the dict by reference and lines 198-200 of
`_update_one` pop the primary-key entry from that same object before any
later failure point, so the caller's binding observes exactly `popPk`. -/
def updateOneCallerDict (model : Model) (uv : List (String × String)) :
    List (String × String) :=
  popPk model uv

/-- An engine as produced by a successful `create_engine(url)`. -/
structure Engine where
  url : String
  deriving DecidableEq, Repr

/-- Does the string contain the RFC-1738 dialect separator `://` that
`create_engine`'s URL parser requires? -/
def sepCheck : List Char → Bool
  | [] => false
  | [_] => false
  | [_, _] => false
  | a :: b :: c :: rest =>
      (a == ':' && b == '/' && c == '/') || sepCheck (b :: c :: rest)

/-- Narrow modelled interface of the external `sqlalchemy.create_engine`: it
parses the URL string and raises `ArgumentError` ("Could not parse ...") when
the string is not of the form `dialect://...`; otherwise it produces an
engine.  Only the existence of a failure mode matters to the claims; URL
parsing is the one modelled here. -/
def create_engine (url : String) : Except PyErr Engine :=
  if sepCheck url.data then .ok ⟨url⟩
  else .error (.argumentError ("Could not parse SQLAlchemy URL from string " ++ url))

/-- The generic Connection Context `SqlAlchemyDb` (src/database.py). -/
structure SqlAlchemyDb where
  connection_url : String
  engine : Engine
  schema : String
  deriving DecidableEq, Repr

/-- `SqlAlchemyDb.__init__` (src/database.py lines 35-40): stores the URL and
creates the engine, session factory and declarative base — with *no*
`try/except`, so any error raised by `create_engine` (or the session-factory
or declarative-base construction) propagates to the caller unwrapped. -/
def SqlAlchemyDb.init (connection_url : String) (schema : String) :
    Except PyErr SqlAlchemyDb :=
  match create_engine connection_url with
  | .error e => .error e
  | .ok eng => .ok ⟨connection_url, eng, schema⟩

/-- The PostgreSQL Connection Context `PostgreSqlDb`
(src/postgresql/database.py). -/
structure PostgreSqlDb where
  postgresql_url : String
  engine : Engine
  schema : String
  deriving DecidableEq, Repr

/-- `PostgreSqlDb.__init__` (src/postgresql/database.py lines 50-58): the same
construction steps, but wrapped in `try/except Exception as e: raise
PostgreSqlDbBuildingException(e)` — every construction failure is rethrown as
the single domain-specific error kind carrying the original cause. -/
def PostgreSqlDb.init (postgresql_url : String) (postgresql_schema : String) :
    Except PyErr PostgreSqlDb :=
  match create_engine postgresql_url with
  | .error e => .error (.pgBuildingWrapped e)
  | .ok eng => .ok ⟨postgresql_url, eng, postgresql_schema⟩

/-- The bytes Python's `urllib.parse` never quotes: ASCII letters, digits and
`_`, `.`, `-`, `~`. -/
def isAlwaysSafeByte (b : Nat) : Bool :=
  (65 ≤ b && b ≤ 90) || (97 ≤ b && b ≤ 122) || (48 ≤ b && b ≤ 57) ||
    b == 95 || b == 46 || b == 45 || b == 126

/-- Uppercase hexadecimal digit of a value below 16, as a byte
(`'0'`..`'9'`, `'A'`..`'F'` — the case `quote` emits). -/
def hexDigitUpper (n : Nat) : Nat := if n < 10 then 48 + n else 55 + n

/-- Is the byte an ASCII hex digit (either case, as `unquote` accepts)? -/
def isHexDigitByte (c : Nat) : Bool :=
  (48 ≤ c && c ≤ 57) || (65 ≤ c && c ≤ 70) || (97 ≤ c && c ≤ 102)

/-- Numeric value of an ASCII hex digit byte. -/
def hexVal (c : Nat) : Nat :=
  if 48 ≤ c && c ≤ 57 then c - 48
  else if 65 ≤ c && c ≤ 70 then c - 55
  else if 97 ≤ c && c ≤ 102 then c - 87
  else 0

/-- `urllib.parse.quote_plus` on one byte: safe bytes pass through, a space
becomes `+`, every other byte becomes `%XX`. -/
def quotePlusByte (b : Nat) : List Nat :=
  if isAlwaysSafeByte b then [b]
  else if b == 32 then [43]
  else [37, hexDigitUpper (b / 16), hexDigitUpper (b % 16)]

/-- `urllib.parse.quote_plus` over the byte sequence of the input string —
the encoder `PostgreSqlDbBuilder.build` applies to the password before
splicing it into the connection URL (src/postgresql/database.py line 181). -/
def quotePlusBytes : List Nat → List Nat
  | [] => []
  | b :: rest => quotePlusByte b ++ quotePlusBytes rest

/-- `urllib.parse.unquote_plus`: `+` becomes a space, `%` followed by two hex
digits becomes that byte, and anything else (including a `%` with malformed
hex) passes through — Python leaves invalid escapes as literal text. -/
def unquotePlusBytes : List Nat → List Nat
  | [] => []
  | b :: h1 :: h2 :: rest2 =>
      if b == 43 then 32 :: unquotePlusBytes (h1 :: h2 :: rest2)
      else if b == 37 then
        if isHexDigitByte h1 && isHexDigitByte h2 then
          (hexVal h1 * 16 + hexVal h2) :: unquotePlusBytes rest2
        else 37 :: unquotePlusBytes (h1 :: h2 :: rest2)
      else b :: unquotePlusBytes (h1 :: h2 :: rest2)
  | b :: rest =>
      if b == 43 then 32 :: unquotePlusBytes rest
      else b :: unquotePlusBytes rest

/-- `quote_plus` at the string level.  Python encodes the `str` to bytes and
percent-encodes those; character codes are used as the byte sequence here
(identical for the ASCII range, where every URL-reserved character lives),
and the encoder's output is pure ASCII, so decoding it back byte-per-char is
exact. -/
def quote_plus (s : String) : String :=
  ⟨(quotePlusBytes (s.data.map Char.toNat)).map Char.ofNat⟩

/-- `PostgreSqlDbBuilder` (src/postgresql/database.py lines 94-170): class
attributes give `host`, `username`, `schema` and `port` defaults; `password`
and `database_name` are only annotated, so they are *unset* (`hasattr` is
false, access raises `AttributeError`) until the corresponding setter runs —
modelled as `Option` fields that start as `none`. -/
structure PostgreSqlDbBuilder where
  postgresql_host : String
  postgresql_username : String
  postgresql_schema : String
  postgresql_port : Nat
  postgresql_password : Option String
  postgresql_database_name : Option String
  deriving DecidableEq, Repr

/-- A freshly constructed builder: the class-attribute defaults. -/
def PostgreSqlDbBuilder.new : PostgreSqlDbBuilder :=
  ⟨"localhost", "postgres", "public", 5432, none, none⟩

def PostgreSqlDbBuilder.set_host (b : PostgreSqlDbBuilder) (v : String) : PostgreSqlDbBuilder :=
  ⟨v, b.postgresql_username, b.postgresql_schema, b.postgresql_port,
    b.postgresql_password, b.postgresql_database_name⟩

def PostgreSqlDbBuilder.set_username (b : PostgreSqlDbBuilder) (v : String) : PostgreSqlDbBuilder :=
  ⟨b.postgresql_host, v, b.postgresql_schema, b.postgresql_port,
    b.postgresql_password, b.postgresql_database_name⟩

def PostgreSqlDbBuilder.set_password (b : PostgreSqlDbBuilder) (v : String) : PostgreSqlDbBuilder :=
  ⟨b.postgresql_host, b.postgresql_username, b.postgresql_schema, b.postgresql_port,
    some v, b.postgresql_database_name⟩

def PostgreSqlDbBuilder.set_port (b : PostgreSqlDbBuilder) (v : Nat) : PostgreSqlDbBuilder :=
  ⟨b.postgresql_host, b.postgresql_username, b.postgresql_schema, v,
    b.postgresql_password, b.postgresql_database_name⟩

def PostgreSqlDbBuilder.set_database_name (b : PostgreSqlDbBuilder) (v : String) : PostgreSqlDbBuilder :=
  ⟨b.postgresql_host, b.postgresql_username, b.postgresql_schema, b.postgresql_port,
    b.postgresql_password, some v⟩

def PostgreSqlDbBuilder.set_schema (b : PostgreSqlDbBuilder) (v : String) : PostgreSqlDbBuilder :=
  ⟨b.postgresql_host, b.postgresql_username, v, b.postgresql_port,
    b.postgresql_password, b.postgresql_database_name⟩

/-- The `try` block of `build()` (src/postgresql/database.py lines 179-189):
assemble `postgresql+psycopg2://{username}:{quote_plus(password)}@{host}:{port}/{database}`
and construct the `PostgreSqlDb`.  The expression evaluates left to right:
the username (always set), then `quote_plus(self._postgresql_password)` —
raising `AttributeError` for the internal attribute when the password was
never set — then host and port (always set), then
`self._postgresql_database_name` — raising `AttributeError` when it was never
set.  The source's `if self._postgresql_schema is None` guard cannot take its
then-branch, because the schema attribute always holds a string (class default
`"public"`, and `set_schema` stores its string argument). -/
def PostgreSqlDbBuilder.buildTryBody (b : PostgreSqlDbBuilder) : Except PyErr PostgreSqlDb :=
  match b.postgresql_password with
  | none => .error (.attributeError "_postgresql_password")
  | some pw =>
      match b.postgresql_database_name with
      | none => .error (.attributeError "_postgresql_database_name")
      | some db =>
          PostgreSqlDb.init
            ("postgresql+psycopg2://" ++ b.postgresql_username ++ ":" ++ quote_plus pw ++
              "@" ++ b.postgresql_host ++ ":" ++ toString b.postgresql_port ++ "/" ++ db)
            b.postgresql_schema

/-- The `except AttributeError` handler of `build()` (lines 194-200): probe
`hasattr` for the password, then for the database name, collecting the
internal names of the unset ones in that order. -/
def PostgreSqlDbBuilder.missingFields (b : PostgreSqlDbBuilder) : List String :=
  (match b.postgresql_password with
   | none => ["_postgresql_password"]
   | some _ => []) ++
  (match b.postgresql_database_name with
   | none => ["_postgresql_database_name"]
   | some _ => [])

/-- `PostgreSqlDbBuilder.build` (src/postgresql/database.py lines 172-203):
run the try block; re-raise a `PostgreSqlDbBuildingException` as-is, turn an
`AttributeError` into the missing-fields `PostgreSqlDbBuildingException`, and
wrap any other exception as `PostgreSqlDbBuildingException(e)`. -/
def PostgreSqlDbBuilder.build (b : PostgreSqlDbBuilder) : Except PyErr PostgreSqlDb :=
  match b.buildTryBody with
  | .ok db => .ok db
  | .error e =>
      if e.isConstructionError then .error e
      else
        match e with
        | .attributeError _ => .error (.pgBuildingMissingFields b.missingFields)
        | _ => .error (.pgBuildingWrapped e)

/-- The outcome of running an operation against a fresh database state over
the given table. -/
def resultOf (x : M α) (tbl : List Row) : Except PyErr α := (x (World.init tbl)).1

/-- The table contents after running an operation against a fresh database
state. -/
def tableOf (x : M α) (tbl : List Row) : List Row := (x (World.init tbl)).2.table

/-- The session event trace of running an operation against a fresh database
state. -/
def traceOf (x : M α) (tbl : List Row) : List Ev := (x (World.init tbl)).2.trace

/-- No session is used (by any session method call) after it was closed:
for every `closeS sid` in the trace, no later event is a use of `sid`. -/
def noUseAfterCloseB : List Ev → Bool
  | [] => true
  | .closeS sid :: rest => !(rest.any (isUseOf sid)) && noUseAfterCloseB rest
  | _ :: rest => noUseAfterCloseB rest

/-- Every session opened in the trace is closed later in the trace. -/
def opensAllClosedB : List Ev → Bool
  | [] => true
  | .openS sid :: rest => rest.any (isCloseOf sid) && opensAllClosedB rest
  | _ :: rest => opensAllClosedB rest

/-- The session-scoping contract for an operation that owns its session:
every session it opens is closed on every exit path, and once closed is never
used again. -/
def wellScopedB (t : List Ev) : Bool := opensAllClosedB t && noUseAfterCloseB t

/-- The operation closes no session at all — in particular not the
caller-supplied one. -/
def noCloseB (t : List Ev) : Bool := t.all (fun e => !e.isClose)

/-- Number of `commit()` calls in the trace. -/
def commitCount (t : List Ev) : Nat := t.countP (fun e => isCommitEv e)

/-- A concrete mapped model for evaluation: table `users`, primary key `id`. -/
def usersModel : Model := ⟨"users", "id"⟩

/-- A concrete stored row of `users`. -/
def row1 : Row := [("id", "1"), ("name", "ada")]

lemma storeOne_trace (model : Model) (r : Row) (w : World) :
    ((storeOne model r w).2).trace = w.trace := by
  cases h : getAttr r model.pkField <;> simp [storeOne, World.setTable, h]

lemma storeOne_nextSid (model : Model) (r : Row) (w : World) :
    ((storeOne model r w).2).nextSid = w.nextSid := by
  cases h : getAttr r model.pkField <;> simp [storeOne, World.setTable, h]

lemma storeOne_table (model : Model) (r : Row) (w : World) :
    ((storeOne model r w).2).table = w.table ++ [(storeOne model r w).1] := by
  cases h : getAttr r model.pkField <;> simp [storeOne, World.setTable, h]

lemma storeAll_trace (model : Model) (objs : List Row) (w : World) :
    ((storeAll model objs w).2).trace = w.trace := by
  induction objs generalizing w with
  | nil => simp [storeAll]
  | cons o rest ih => simp [storeAll, ih, storeOne_trace]

lemma storeAll_length (model : Model) (objs : List Row) (w : World) :
    ((storeAll model objs w).1).length = objs.length := by
  induction objs generalizing w with
  | nil => simp [storeAll]
  | cons o rest ih => simp [storeAll, ih]

lemma storeAll_table (model : Model) (objs : List Row) (w : World) :
    ((storeAll model objs w).2).table = w.table ++ (storeAll model objs w).1 := by
  induction objs generalizing w with
  | nil => simp [storeAll]
  | cons o rest ih => simp [storeAll, ih, storeOne_table]

lemma refreshAll_trace (s : Session) (rs : List Row) (w : World) :
    (refreshAll s rs w).trace = w.trace ++ List.replicate rs.length (Ev.useS s.sid "refresh") := by
  induction rs generalizing w with
  | nil => simp [refreshAll]
  | cons r rest ih => simp [refreshAll, ih, World.emit, List.replicate_succ]

lemma refreshAll_table (s : Session) (rs : List Row) (w : World) :
    (refreshAll s rs w).table = w.table := by
  induction rs generalizing w with
  | nil => simp [refreshAll]
  | cons r rest ih => simp [refreshAll, ih, World.emit]

lemma opensAllClosedB_skip (e : Ev) (t : List Ev) (h : e.isOpen = false) :
    opensAllClosedB (e :: t) = opensAllClosedB t := by
  cases e <;> simp_all [opensAllClosedB, Ev.isOpen]

lemma noUseAfterCloseB_skip (e : Ev) (t : List Ev) (h : e.isClose = false) :
    noUseAfterCloseB (e :: t) = noUseAfterCloseB t := by
  cases e <;> simp_all [noUseAfterCloseB, Ev.isClose]

lemma any_isCloseOf_replicate_use (k sid : Nat) (op : String) (n : Nat) :
    (List.replicate n (Ev.useS sid op)).any (isCloseOf k) = false := by
  induction n with
  | zero => simp
  | succ m ih => simp [List.replicate_succ, ih, isCloseOf]

lemma opensAllClosedB_replicate_use (sid : Nat) (op : String) (n : Nat) (t : List Ev) :
    opensAllClosedB (List.replicate n (Ev.useS sid op) ++ t) = opensAllClosedB t := by
  induction n with
  | zero => simp
  | succ m ih => simp [List.replicate_succ, opensAllClosedB, ih]

lemma noUseAfterCloseB_replicate_use (sid : Nat) (op : String) (n : Nat) (t : List Ev) :
    noUseAfterCloseB (List.replicate n (Ev.useS sid op) ++ t) = noUseAfterCloseB t := by
  induction n with
  | zero => simp
  | succ m ih => simp [List.replicate_succ, noUseAfterCloseB, ih]

lemma noCloseB_replicate_use (sid : Nat) (op : String) (n : Nat) :
    noCloseB (List.replicate n (Ev.useS sid op)) = true := by
  induction n with
  | zero => simp [noCloseB]
  | succ m ih => simp [List.replicate_succ, noCloseB, Ev.isClose]

lemma traceOf_retrieve_none (model : Model) (tbl : List Row) (pk : String) :
    traceOf (retrieve model pk none) tbl =
      [Ev.openS 0, Ev.useS 0 "query_get", Ev.closeS 0] := by
  cases h : findRow model tbl pk <;>
    simp [traceOf, retrieve, retrieveInner, withDatabaseSession, World.init, World.emit, h]

lemma traceOf_list_all_none (model : Model) (tbl : List Row) :
    traceOf (list_all model none) tbl =
      [Ev.openS 0, Ev.useS 0 "query_all", Ev.closeS 0] := rfl

lemma traceOf_add_one_none (model : Model) (tbl : List Row) (obj : Row) :
    traceOf (add_one model obj none) tbl = [Ev.openS 0, Ev.closeS 0] := rfl

lemma traceOf_add_many_none (model : Model) (tbl : List Row) (objs : List Row) (wr : Bool) :
    traceOf (add_many model objs wr none) tbl =
      Ev.openS 0 :: Ev.useS 0 "add_all" :: Ev.useS 0 "commit" ::
        (if wr then List.replicate objs.length (Ev.useS 0 "refresh") else []) ++
          [Ev.closeS 0] := by
  cases wr <;>
    simp [traceOf, add_many, addManyInner, withDatabaseSession, World.init, World.emit,
      storeAll_trace, refreshAll_trace, storeAll_length]

lemma traceOf_update_one_none (model : Model) (tbl : List Row) (pk : String)
    (uv : List (String × String)) :
    traceOf (update_one model pk uv none) tbl =
      [Ev.openS 0, Ev.useS 0 "query_get", Ev.closeS 0] ∨
    traceOf (update_one model pk uv none) tbl =
      [Ev.openS 0, Ev.useS 0 "query_get", Ev.useS 0 "commit", Ev.useS 0 "refresh",
        Ev.closeS 0] := by
  cases h : findRow model tbl pk with
  | none =>
      cases h2 : popPk model uv with
      | nil =>
          right
          simp [traceOf, update_one, updateOneInner, withDatabaseSession, World.init,
            World.emit, World.setTable, h, h2]
      | cons p rest =>
          left
          simp [traceOf, update_one, updateOneInner, withDatabaseSession, World.init,
            World.emit, World.setTable, h, h2]
  | some r =>
      right
      simp [traceOf, update_one, updateOneInner, withDatabaseSession, World.init,
        World.emit, World.setTable, h]

lemma traceOf_delete_one_none (model : Model) (tbl : List Row) (pk : String) :
    traceOf (delete_one model pk none) tbl =
      [Ev.openS 0, Ev.useS 0 "query", Ev.closeS 0] := rfl

lemma traceOf_retrieve_some (model : Model) (tbl : List Row) (pk : String) (s : Session) :
    traceOf (retrieve model pk (some s)) tbl = [] := rfl

lemma traceOf_list_all_some (model : Model) (tbl : List Row) (s : Session) :
    traceOf (list_all model (some s)) tbl = [] := rfl

lemma traceOf_add_one_some (model : Model) (tbl : List Row) (obj : Row) (s : Session) :
    traceOf (add_one model obj (some s)) tbl = [] := rfl

lemma traceOf_add_many_some (model : Model) (tbl : List Row) (objs : List Row) (wr : Bool)
    (s : Session) :
    traceOf (add_many model objs wr (some s)) tbl =
      Ev.useS s.sid "add_all" :: Ev.useS s.sid "commit" ::
        (if wr then List.replicate objs.length (Ev.useS s.sid "refresh") else []) := by
  cases wr <;>
    simp [traceOf, add_many, addManyInner, World.init, World.emit,
      storeAll_trace, refreshAll_trace, storeAll_length]

lemma traceOf_update_one_some (model : Model) (tbl : List Row) (pk : String)
    (uv : List (String × String)) (s : Session) :
    traceOf (update_one model pk uv (some s)) tbl = [Ev.useS s.sid "query_get"] ∨
    traceOf (update_one model pk uv (some s)) tbl =
      [Ev.useS s.sid "query_get", Ev.useS s.sid "commit", Ev.useS s.sid "refresh"] := by
  cases h : findRow model tbl pk with
  | none =>
      cases h2 : popPk model uv with
      | nil =>
          right
          simp [traceOf, update_one, updateOneInner, World.init, World.emit,
            World.setTable, h, h2]
      | cons p rest =>
          left
          simp [traceOf, update_one, updateOneInner, World.init, World.emit,
            World.setTable, h, h2]
  | some r =>
      right
      simp [traceOf, update_one, updateOneInner, World.init, World.emit, World.setTable, h]

lemma traceOf_delete_one_some (model : Model) (tbl : List Row) (pk : String) (s : Session) :
    traceOf (delete_one model pk (some s)) tbl = [Ev.useS s.sid "query"] := rfl

lemma opensAllClosedB_append_noopen (mid t : List Ev)
    (h : mid.all (fun e => !e.isOpen) = true) :
    opensAllClosedB (mid ++ t) = opensAllClosedB t := by
  induction mid with
  | nil => simp
  | cons e rest ih =>
      simp only [List.all_cons, Bool.and_eq_true, Bool.not_eq_true'] at h
      rw [List.cons_append, opensAllClosedB_skip e (rest ++ t) h.1, ih h.2]

lemma noUseAfterCloseB_append_noclose (mid t : List Ev)
    (h : noCloseB mid = true) :
    noUseAfterCloseB (mid ++ t) = noUseAfterCloseB t := by
  induction mid with
  | nil => simp
  | cons e rest ih =>
      simp only [noCloseB, List.all_cons, Bool.and_eq_true, Bool.not_eq_true'] at h
      rw [List.cons_append, noUseAfterCloseB_skip e (rest ++ t) h.1]
      exact ih h.2

lemma wellScopedB_open_mid_close (k : Nat) (mid : List Ev)
    (ho : mid.all (fun e => !e.isOpen) = true)
    (hc : noCloseB mid = true) :
    wellScopedB (Ev.openS k :: (mid ++ [Ev.closeS k])) = true := by
  have hany : (mid ++ [Ev.closeS k]).any (isCloseOf k) = true := by
    simp [List.any_append, isCloseOf]
  have h1 : opensAllClosedB (Ev.openS k :: (mid ++ [Ev.closeS k])) = true := by
    rw [opensAllClosedB, hany, opensAllClosedB_append_noopen mid [Ev.closeS k] ho]
    simp [opensAllClosedB]
  have h2 : noUseAfterCloseB (Ev.openS k :: (mid ++ [Ev.closeS k])) = true := by
    rw [noUseAfterCloseB_skip (Ev.openS k) (mid ++ [Ev.closeS k]) (by rfl),
      noUseAfterCloseB_append_noclose mid [Ev.closeS k] hc]
    simp [noUseAfterCloseB]
  simp [wellScopedB, h1, h2]

lemma wellScoped_add_many_none (model : Model) (tbl : List Row) (objs : List Row) (wr : Bool) :
    wellScopedB (traceOf (add_many model objs wr none) tbl) = true := by
  rw [traceOf_add_many_none]
  cases wr with
  | false =>
      have h := wellScopedB_open_mid_close 0 [Ev.useS 0 "add_all", Ev.useS 0 "commit"]
        (by simp [Ev.isOpen]) (by simp [noCloseB, Ev.isClose])
      simpa using h
  | true =>
      have h := wellScopedB_open_mid_close 0
        (Ev.useS 0 "add_all" :: Ev.useS 0 "commit" ::
          List.replicate objs.length (Ev.useS 0 "refresh"))
        (by simp [Ev.isOpen]) (by simp [noCloseB, Ev.isClose])
      simpa using h

lemma wellScoped_update_one_none (model : Model) (tbl : List Row) (pk : String)
    (uv : List (String × String)) :
    wellScopedB (traceOf (update_one model pk uv none) tbl) = true := by
  rcases traceOf_update_one_none model tbl pk uv with h | h <;> rw [h] <;> rfl

/-- C1: for every repository operation, a caller-supplied session is never
closed by the operation (its run closes no session at all), and a run without
a caller session closes every session it opened on every exit path — normal
return, early return or raised error — and performs no session call after the
close.  Stated over the event trace of each operation on an arbitrary table,
for arbitrary arguments, for all six operations in both call forms. -/
theorem session_scoping_contract (model : Model) (tbl : List Row) (pk : String)
    (obj : Row) (objs : List Row) (wr : Bool) (uv : List (String × String))
    (s : Session) :
    (wellScopedB (traceOf (retrieve model pk none) tbl) = true ∧
     wellScopedB (traceOf (list_all model none) tbl) = true ∧
     wellScopedB (traceOf (add_one model obj none) tbl) = true ∧
     wellScopedB (traceOf (add_many model objs wr none) tbl) = true ∧
     wellScopedB (traceOf (update_one model pk uv none) tbl) = true ∧
     wellScopedB (traceOf (delete_one model pk none) tbl) = true) ∧
    (noCloseB (traceOf (retrieve model pk (some s)) tbl) = true ∧
     noCloseB (traceOf (list_all model (some s)) tbl) = true ∧
     noCloseB (traceOf (add_one model obj (some s)) tbl) = true ∧
     noCloseB (traceOf (add_many model objs wr (some s)) tbl) = true ∧
     noCloseB (traceOf (update_one model pk uv (some s)) tbl) = true ∧
     noCloseB (traceOf (delete_one model pk (some s)) tbl) = true) := by
  constructor
  · refine ⟨?_, ?_, ?_, ?_, ?_, ?_⟩
    · rw [traceOf_retrieve_none]; rfl
    · rw [traceOf_list_all_none]; rfl
    · rw [traceOf_add_one_none]; rfl
    · exact wellScoped_add_many_none model tbl objs wr
    · exact wellScoped_update_one_none model tbl pk uv
    · rw [traceOf_delete_one_none]; rfl
  · refine ⟨rfl, rfl, rfl, ?_, ?_, ?_⟩
    · rw [traceOf_add_many_some]
      cases wr with
      | false => simp [noCloseB, Ev.isClose]
      | true =>
          simp only [if_pos rfl, noCloseB, List.all_cons, Bool.and_eq_true]
          refine ⟨rfl, rfl, ?_⟩
          have := noCloseB_replicate_use s.sid "refresh" objs.length
          simpa [noCloseB] using this
    · rcases traceOf_update_one_some model tbl pk uv s with h | h <;> rw [h] <;>
        simp [noCloseB, Ev.isClose]
    · rw [traceOf_delete_one_some]; simp [noCloseB, Ev.isClose]

/-- C2: evaluation of `delete_one` at a primary key whose row exists.  The
call raises `TypeError` (from `Query.get(pk=pk)` inside `_delete_one`),
leaves the table unchanged, commits nothing — and a subsequent
`retrieve(pk)` on the resulting table still returns the row instead of
raising not-found.  This contradicts the claim that `delete_one(pk)` deletes
the matching row, commits, and makes `retrieve(pk)` raise not-found. -/
theorem delete_one_never_deletes :
    resultOf (delete_one usersModel "1" none) [row1] =
      .error (.typeError "get() got an unexpected keyword argument, pk") ∧
    tableOf (delete_one usersModel "1" none) [row1] = [row1] ∧
    commitCount (traceOf (delete_one usersModel "1" none) [row1]) = 0 ∧
    resultOf (retrieve usersModel "1" none)
      (tableOf (delete_one usersModel "1" none) [row1]) = .ok row1 := by
  refine ⟨rfl, rfl, rfl, ?_⟩
  rfl

/-- C3: evaluation of `list_all` in both call forms on an arbitrary table.
With a caller-supplied open session the call raises `AttributeError`, because
`ListRepository` (and every class it composes) never defines the `_list_all`
method that line 74 invokes; only the no-session form performs the full
unfiltered scan.  This contradicts the claim that both call forms return the
sequence of all rows without raising. -/
theorem list_all_with_session_raises (model : Model) (tbl : List Row) (s : Session) :
    resultOf (list_all model (some s)) tbl =
      .error (.attributeError "object has no attribute, _list_all") ∧
    resultOf (list_all model none) tbl = .ok tbl :=
  ⟨rfl, rfl⟩

/-- C6: `retrieve(pk)` (default call form, no caller session) raises the
domain-specific querying exception when no row matches, with the message
built from the exact primary-key value and the mapped table's name, and
returns the matching domain object (raising nothing) when a row matches. -/
theorem retrieve_not_found_message_and_found (model : Model) (tbl : List Row) (pk : String) :
    (findRow model tbl pk = none →
      resultOf (retrieve model pk none) tbl =
        .error (.queryingException ("No object with primary key " ++ pk ++
          ", exists on table " ++ model.tableName))) ∧
    (∀ r, findRow model tbl pk = some r →
      resultOf (retrieve model pk none) tbl = .ok r) := by
  constructor
  · intro h
    simp [resultOf, retrieve, retrieveInner, withDatabaseSession, World.init, World.emit, h]
  · intro r h
    simp [resultOf, retrieve, retrieveInner, withDatabaseSession, World.init, World.emit, h]

/-- Witness for C6 at a concrete table: pk `9` is absent (not-found error with
pk and table name in the message), pk `1` is present (the row is returned). -/
theorem retrieve_not_found_message_and_found_witness :
    resultOf (retrieve usersModel "9" none) [row1] =
      .error (.queryingException ("No object with primary key " ++ "9" ++
        ", exists on table " ++ usersModel.tableName)) ∧
    resultOf (retrieve usersModel "1" none) [row1] = .ok row1 :=
  ⟨(retrieve_not_found_message_and_found usersModel [row1] "9").1 rfl,
   (retrieve_not_found_message_and_found usersModel [row1] "1").2 row1 rfl⟩

lemma getAttr_setAttr_self (r : Row) (f v : String) :
    getAttr (setAttr r f v) f = some v := by
  induction r with
  | nil => simp [setAttr, getAttr]
  | cons kv rest ih =>
      by_cases h : kv.1 = f
      · simp [setAttr, getAttr, h]
      · cases kv
        simp_all [setAttr, getAttr, h]

lemma getAttr_setAttr_ne (r : Row) (f g v : String) (h : g ≠ f) :
    getAttr (setAttr r f v) g = getAttr r g := by
  induction r with
  | nil => simp [setAttr, getAttr, h, Ne.symm h]
  | cons kv rest ih =>
      cases kv with
      | mk k w =>
          by_cases hk : k = f
          · simp [setAttr, getAttr, hk, h, Ne.symm h]
          · by_cases hg : k = g <;> simp [setAttr, getAttr, hk, hg, h, Ne.symm h, ih]

lemma storeOne_populated (model : Model) (r : Row) (w : World) :
    getAttr (storeOne model r w).1 model.pkField ≠ none := by
  cases h : getAttr r model.pkField <;>
    simp [storeOne, h, getAttr_setAttr_self]

lemma storeAll_populated (model : Model) (objs : List Row) (w : World) :
    ∀ r ∈ (storeAll model objs w).1, getAttr r model.pkField ≠ none := by
  induction objs generalizing w with
  | nil => simp [storeAll]
  | cons o rest ih =>
      intro r hr
      simp only [storeAll, List.mem_cons] at hr
      rcases hr with hr | hr
      · rw [hr]; exact storeOne_populated model o w
      · exact ih _ r hr

lemma commitCount_replicate_use (sid : Nat) (op : String) (n : Nat)
    (h : (op == "commit") = false) :
    commitCount (List.replicate n (Ev.useS sid op)) = 0 := by
  induction n with
  | zero => rfl
  | succ m ih => simp [commitCount, List.replicate_succ, List.countP_cons, isCommitEv, h]

/-- C7: `add_many` inserts the whole collection in one unit of work with
exactly one `commit()` — in both `with_return` modes and in both call forms —
returns `None` when `with_return` is false, and returns the collection of
stored objects, each with its storage-generated primary key populated, when
`with_return` is true; the table grows by exactly those stored objects either
way. -/
theorem add_many_single_commit_and_return (model : Model) (tbl : List Row)
    (objs : List Row) (s : Session) (wr : Bool) :
    commitCount (traceOf (add_many model objs false none) tbl) = 1 ∧
    commitCount (traceOf (add_many model objs true none) tbl) = 1 ∧
    commitCount (traceOf (add_many model objs wr (some s)) tbl) = 1 ∧
    resultOf (add_many model objs false none) tbl = .ok none ∧
    (∃ stored, resultOf (add_many model objs true none) tbl = .ok (some stored) ∧
      stored.length = objs.length ∧
      (∀ r ∈ stored, getAttr r model.pkField ≠ none) ∧
      tableOf (add_many model objs true none) tbl = tbl ++ stored ∧
      tableOf (add_many model objs false none) tbl = tbl ++ stored) := by
  refine ⟨?_, ?_, ?_, ?_, ?_⟩
  · rw [traceOf_add_many_none]
    simp [commitCount, List.countP_cons, isCommitEv]
  · rw [traceOf_add_many_none]
    simp [commitCount, List.countP_cons, List.countP_append, isCommitEv,
      commitCount_replicate_use 0 "refresh" objs.length rfl]
  · rw [traceOf_add_many_some]
    cases wr with
    | false => simp [commitCount, List.countP_cons, isCommitEv]
    | true =>
        simp [commitCount, List.countP_cons, isCommitEv,
          commitCount_replicate_use s.sid "refresh" objs.length rfl]
  · simp [resultOf, add_many, addManyInner, withDatabaseSession, World.init, World.emit]
  · refine ⟨(storeAll model objs ⟨tbl, 1, 1, [Ev.openS 0, Ev.useS 0 "add_all"]⟩).1,
      ?_, ?_, ?_, ?_, ?_⟩
    · simp [resultOf, add_many, addManyInner, withDatabaseSession, World.init, World.emit]
    · exact storeAll_length model objs _
    · exact storeAll_populated model objs _
    · simp [tableOf, add_many, addManyInner, withDatabaseSession, World.init, World.emit,
        refreshAll_table, storeAll_table]
    · simp [tableOf, add_many, addManyInner, withDatabaseSession, World.init, World.emit,
        storeAll_table]

/-- Witness for C7 at a concrete input: two objects without primary keys are
stored with generated keys `1` and `2`, one commit, and the `with_return`
modes return `None` and the stored collection respectively. -/
theorem add_many_single_commit_and_return_witness :
    commitCount (traceOf (add_many usersModel [[("name", "a")], [("name", "b")]] true none) []) = 1 ∧
    resultOf (add_many usersModel [[("name", "a")], [("name", "b")]] false none) [] = .ok none ∧
    ∃ stored,
      resultOf (add_many usersModel [[("name", "a")], [("name", "b")]] true none) [] =
        .ok (some stored) ∧
      stored.length = 2 ∧ (∀ r ∈ stored, getAttr r usersModel.pkField ≠ none) := by
  have h := add_many_single_commit_and_return usersModel [] [[("name", "a")], [("name", "b")]]
    ⟨7⟩ true
  rcases h with ⟨_, h2, _, h4, stored, h5, h6, h7, _, _⟩
  exact ⟨h2, h4, stored, h5, h6, h7⟩

lemma containsKey_iff_mem_keys (l : List (String × String)) (f : String) :
    containsKey l f = true ↔ f ∈ l.map Prod.fst := by
  induction l with
  | nil => simp [containsKey]
  | cons kv rest ih =>
      cases kv with
      | mk k v =>
          by_cases h : k = f
          · simp [containsKey, h]
          · constructor
            · intro hc
              simp only [containsKey, h, decide_eq_true_eq, Bool.or_eq_true,
                decide_eq_true_iff] at hc
              rcases hc with hc | hc
              · exact hc.elim
              · simp [ih.mp hc]
            · intro hm
              simp only [List.map_cons, List.mem_cons] at hm
              rcases hm with hm | hm
              · exact absurd hm.symm h
              · simp [containsKey, ih.mpr hm]

lemma getAttr_eq_none_of_not_containsKey (l : List (String × String)) (f : String)
    (h : containsKey l f = false) : getAttr l f = none := by
  induction l with
  | nil => simp [getAttr]
  | cons kv rest ih =>
      cases kv with
      | mk k v =>
          simp only [containsKey, Bool.or_eq_false_iff] at h
          have hk : ¬k = f := by
            intro he
            rw [he] at h
            simp at h
          simp [getAttr, hk, ih h.2]

lemma mem_keys_eraseKey (l : List (String × String)) (g f : String)
    (h : f ∈ (eraseKey l g).map Prod.fst) : f ∈ l.map Prod.fst := by
  induction l with
  | nil => simp [eraseKey] at h
  | cons kv rest ih =>
      cases kv with
      | mk k v =>
          by_cases hk : k = g
          · simp only [eraseKey, if_pos hk] at h
            simp [h]
          · simp only [eraseKey, if_neg hk, List.map_cons, List.mem_cons] at h
            rcases h with h | h
            · simp [h]
            · simp [ih h]

lemma containsKey_eraseKey_self (l : List (String × String)) (f : String)
    (h : (l.map Prod.fst).Nodup) : containsKey (eraseKey l f) f = false := by
  induction l with
  | nil => simp [eraseKey, containsKey]
  | cons kv rest ih =>
      cases kv with
      | mk k v =>
          simp only [List.map_cons, List.nodup_cons] at h
          by_cases hk : k = f
          · rw [eraseKey, if_pos hk]
            rcases hc : containsKey rest f with _ | _
            · rfl
            · exact absurd ((containsKey_iff_mem_keys rest f).mp hc)
                (by rw [hk] at h; exact h.1)
          · rw [eraseKey, if_neg hk]
            simp [containsKey, hk, ih h.2]

lemma mem_eraseKey_of_mem (l : List (String × String)) (g f v : String)
    (hmem : (f, v) ∈ l) (hne : f ≠ g) : (f, v) ∈ eraseKey l g := by
  induction l with
  | nil => simp at hmem
  | cons kv rest ih =>
      cases kv with
      | mk k w =>
          rcases List.mem_cons.mp hmem with h | h
          · have hk : ¬k = g := by
              intro he
              apply hne
              rw [← he]
              exact (Prod.mk.injEq f v k w ▸ h).1.symm ▸ rfl
            rw [eraseKey, if_neg hk]
            exact List.mem_cons.mpr (.inl h)
          · by_cases hk : k = g
            · rw [eraseKey, if_pos hk]; exact h
            · rw [eraseKey, if_neg hk]
              exact List.mem_cons.mpr (.inr (ih h))

lemma keysNodup_eraseKey (l : List (String × String)) (g : String)
    (h : (l.map Prod.fst).Nodup) : ((eraseKey l g).map Prod.fst).Nodup := by
  induction l with
  | nil => simp [eraseKey]
  | cons kv rest ih =>
      cases kv with
      | mk k v =>
          simp only [List.map_cons, List.nodup_cons] at h
          by_cases hk : k = g
          · rw [eraseKey, if_pos hk]; exact h.2
          · rw [eraseKey, if_neg hk]
            simp only [List.map_cons, List.nodup_cons]
            exact ⟨fun hm => h.1 (mem_keys_eraseKey rest g k hm), ih h.2⟩

lemma popPk_no_pkField (model : Model) (uv : List (String × String))
    (h : keysNodup uv) : containsKey (popPk model uv) model.pkField = false := by
  unfold popPk
  rcases hc : containsKey uv model.pkField with _ | _
  · simp [hc]
  · simp only [hc, if_pos rfl]
    exact containsKey_eraseKey_self uv model.pkField h

lemma getAttr_applyFields_not_contains (l : List (String × String)) (r : Row) (f : String)
    (h : containsKey l f = false) : getAttr (applyFields r l) f = getAttr r f := by
  induction l generalizing r with
  | nil => simp [applyFields]
  | cons kv rest ih =>
      cases kv with
      | mk k v =>
          simp only [containsKey, Bool.or_eq_false_iff] at h
          have hk : ¬k = f := by
            intro he
            rw [he] at h
            simp at h
          rw [applyFields, ih (setAttr r k v) h.2,
            getAttr_setAttr_ne r k f v (fun he => hk he.symm)]

lemma getAttr_applyFields_mem (l : List (String × String)) (r : Row) (f v : String)
    (hmem : (f, v) ∈ l) (h : (l.map Prod.fst).Nodup) :
    getAttr (applyFields r l) f = some v := by
  induction l generalizing r with
  | nil => simp at hmem
  | cons kv rest ih =>
      cases kv with
      | mk k w =>
          simp only [List.map_cons, List.nodup_cons] at h
          rcases List.mem_cons.mp hmem with hh | hh
          · have hf : f = k := (Prod.mk.injEq f v k w ▸ hh).1
            have hv : v = w := (Prod.mk.injEq f v k w ▸ hh).2
            subst hf
            subst hv
            rw [applyFields,
              getAttr_applyFields_not_contains rest (setAttr r f v) f
                (by
                  rcases hc : containsKey rest f with _ | _
                  · rfl
                  · exact absurd ((containsKey_iff_mem_keys rest f).mp hc) h.1),
              getAttr_setAttr_self]
          · rw [applyFields]
            exact ih (setAttr r k w) hh h.2

lemma getAttr_eraseKey_ne (l : List (String × String)) (g f : String) (h : f ≠ g) :
    getAttr (eraseKey l g) f = getAttr l f := by
  induction l with
  | nil => simp [eraseKey]
  | cons kv rest ih =>
      cases kv with
      | mk k v =>
          by_cases hk : k = g
          · rw [eraseKey, if_pos hk, getAttr]
            have : ¬k = f := fun he => h (he ▸ hk ▸ rfl)
            simp [this]
          · rw [eraseKey, if_neg hk]
            by_cases hf : k = f <;> simp [getAttr, hf, ih]

/-- C5: when a row matches `pk`, `update_one(pk, update_values)` drops the
primary-key field from `update_values` so that the stored primary key is
unchanged even when `update_values` contains it, applies every remaining
field of `update_values` to the loaded object, writes the updated row back,
commits once, refreshes, and returns the updated object (the session trace is
exactly load, commit, refresh inside one scoped session). -/
theorem update_one_drops_pk_applies_rest (model : Model) (tbl : List Row) (pk : String)
    (uv : List (String × String)) (r : Row)
    (hfind : findRow model tbl pk = some r) (hnodup : keysNodup uv) :
    resultOf (update_one model pk uv none) tbl = .ok (applyFields r (popPk model uv)) ∧
    tableOf (update_one model pk uv none) tbl =
      replaceRow model tbl pk (applyFields r (popPk model uv)) ∧
    getAttr (applyFields r (popPk model uv)) model.pkField = getAttr r model.pkField ∧
    (∀ f v, (f, v) ∈ uv → f ≠ model.pkField →
      getAttr (applyFields r (popPk model uv)) f = some v) ∧
    traceOf (update_one model pk uv none) tbl =
      [Ev.openS 0, Ev.useS 0 "query_get", Ev.useS 0 "commit", Ev.useS 0 "refresh",
        Ev.closeS 0] := by
  refine ⟨?_, ?_, ?_, ?_, ?_⟩
  · simp [resultOf, update_one, updateOneInner, withDatabaseSession, World.init, World.emit,
      World.setTable, hfind]
  · simp [tableOf, update_one, updateOneInner, withDatabaseSession, World.init, World.emit,
      World.setTable, hfind]
  · exact getAttr_applyFields_not_contains (popPk model uv) r model.pkField
      (popPk_no_pkField model uv hnodup)
  · intro f v hmem hne
    have hmem2 : (f, v) ∈ popPk model uv := by
      unfold popPk
      rcases hc : containsKey uv model.pkField with _ | _
      · simp [hmem]
      · simp only [if_pos rfl]
        exact mem_eraseKey_of_mem uv model.pkField f v hmem hne
    have hnodup2 : ((popPk model uv).map Prod.fst).Nodup := by
      unfold popPk
      rcases hc : containsKey uv model.pkField with _ | _
      · simpa using hnodup
      · simp only [if_pos rfl]
        exact keysNodup_eraseKey uv model.pkField hnodup
    exact getAttr_applyFields_mem (popPk model uv) r f v hmem2 hnodup2
  · simp [traceOf, update_one, updateOneInner, withDatabaseSession, World.init, World.emit,
      World.setTable, hfind]

/-- Witness for C5 at a concrete input: updating row `1` of `users` with
`{"id": "999", "name": "x"}` keeps the stored primary key `1` and applies
only `name`. -/
theorem update_one_drops_pk_applies_rest_witness :
    resultOf (update_one usersModel "1" [("id", "999"), ("name", "x")] none) [row1] =
      .ok [("id", "1"), ("name", "x")] ∧
    getAttr [("id", "1"), ("name", "x")] usersModel.pkField =
      getAttr row1 usersModel.pkField := by
  have h := update_one_drops_pk_applies_rest usersModel [row1] "1"
    [("id", "999"), ("name", "x")] row1 rfl (by decide)
  exact ⟨h.1, h.2.2.1⟩

/-- C10: `update_one` mutates the caller's `update_values` dictionary: the
primary-key entry, if present, is removed from the dict object the caller
passed (the pop on lines 199-200 acts on that very object), and every other
entry is left unchanged. -/
theorem update_one_mutates_callers_dict (model : Model) (uv : List (String × String))
    (h : keysNodup uv) :
    getAttr (updateOneCallerDict model uv) model.pkField = none ∧
    (∀ f, f ≠ model.pkField → getAttr (updateOneCallerDict model uv) f = getAttr uv f) := by
  constructor
  · exact getAttr_eq_none_of_not_containsKey _ _ (popPk_no_pkField model uv h)
  · intro f hf
    unfold updateOneCallerDict popPk
    rcases hc : containsKey uv model.pkField with _ | _
    · simp
    · simp only [if_pos rfl]
      exact getAttr_eraseKey_ne uv model.pkField f hf

/-- Witness for C10 at a concrete input: after the call, the caller's dict
has no `id` entry any more, while `name` is untouched. -/
theorem update_one_mutates_callers_dict_witness :
    getAttr (updateOneCallerDict usersModel [("id", "999"), ("name", "x")])
      usersModel.pkField = none ∧
    getAttr (updateOneCallerDict usersModel [("id", "999"), ("name", "x")]) "name" =
      getAttr [("id", "999"), ("name", "x")] "name" := by
  have h := update_one_mutates_callers_dict usersModel [("id", "999"), ("name", "x")]
    (by decide)
  exact ⟨h.1, h.2 "name" (by decide)⟩

/-- C8: `build()` with required fields unset fails with the builder's
construction error before any Connection Context is produced, and the error
enumerates by (internal attribute) name exactly the required fields that are
missing: both when both are unset, and exactly the single missing one
otherwise.  The password attribute is probed first (its access occurs first
in the URL expression), and the handler then probes both attributes, so the
enumeration is exact in every combination. -/
theorem build_enumerates_missing_fields (b : PostgreSqlDbBuilder) :
    (b.postgresql_password = none → b.postgresql_database_name = none →
      b.build = .error (.pgBuildingMissingFields
        ["_postgresql_password", "_postgresql_database_name"])) ∧
    (∀ db, b.postgresql_password = none → b.postgresql_database_name = some db →
      b.build = .error (.pgBuildingMissingFields ["_postgresql_password"])) ∧
    (∀ pw, b.postgresql_password = some pw → b.postgresql_database_name = none →
      b.build = .error (.pgBuildingMissingFields ["_postgresql_database_name"])) := by
  refine ⟨?_, ?_, ?_⟩
  · intro hp hd
    simp [PostgreSqlDbBuilder.build, PostgreSqlDbBuilder.buildTryBody,
      PostgreSqlDbBuilder.missingFields, PyErr.isConstructionError, hp, hd]
  · intro db hp hd
    simp [PostgreSqlDbBuilder.build, PostgreSqlDbBuilder.buildTryBody,
      PostgreSqlDbBuilder.missingFields, PyErr.isConstructionError, hp, hd]
  · intro pw hp hd
    simp [PostgreSqlDbBuilder.build, PostgreSqlDbBuilder.buildTryBody,
      PostgreSqlDbBuilder.missingFields, PyErr.isConstructionError, hp, hd]

/-- Witness for C8 at concrete builders: a fresh builder (both required
fields unset) reports both names; setting only the password reports only the
database name; setting only the database name reports only the password. -/
theorem build_enumerates_missing_fields_witness :
    PostgreSqlDbBuilder.new.build = .error (.pgBuildingMissingFields
      ["_postgresql_password", "_postgresql_database_name"]) ∧
    (PostgreSqlDbBuilder.new.set_password "pw").build =
      .error (.pgBuildingMissingFields ["_postgresql_database_name"]) ∧
    (PostgreSqlDbBuilder.new.set_database_name "mydb").build =
      .error (.pgBuildingMissingFields ["_postgresql_password"]) := by
  refine ⟨?_, ?_, ?_⟩
  · exact (build_enumerates_missing_fields PostgreSqlDbBuilder.new).1 rfl rfl
  · exact (build_enumerates_missing_fields (PostgreSqlDbBuilder.new.set_password "pw")).2.2
      "pw" rfl rfl
  · exact (build_enumerates_missing_fields
      (PostgreSqlDbBuilder.new.set_database_name "mydb")).2.1 "mydb" rfl rfl

/-- C4 counterexample: constructing the *generic* Connection Context
`SqlAlchemyDb` from an unparsable URL lets the underlying `ArgumentError`
escape unwrapped — `SqlAlchemyDb.__init__` has no `try/except`, and the
generic component family defines no construction error kind at all — so the
claim that it raises a single domain-specific construction error wrapping
the cause is false at this input. -/
theorem sqlalchemydb_init_unwrapped_counterexample :
    SqlAlchemyDb.init "not-a-url" "public" =
      .error (.argumentError ("Could not parse SQLAlchemy URL from string " ++
        "not-a-url")) ∧
    PyErr.isConstructionError
      (.argumentError ("Could not parse SQLAlchemy URL from string " ++ "not-a-url")) =
      false := by
  constructor
  · rfl
  · rfl

/-- C4 (amended): whenever engine creation fails, the *PostgreSQL*
Connection Context `PostgreSqlDb` wraps the failure into the single
domain-specific construction error carrying the original cause, while the
generic `SqlAlchemyDb` propagates the underlying error unwrapped. -/
theorem construction_failure_wrapping (url schema : String) (e : PyErr)
    (h : create_engine url = .error e) :
    SqlAlchemyDb.init url schema = .error e ∧
    PostgreSqlDb.init url schema = .error (.pgBuildingWrapped e) ∧
    PyErr.isConstructionError (.pgBuildingWrapped e) = true := by
  refine ⟨?_, ?_, rfl⟩ <;> simp [SqlAlchemyDb.init, PostgreSqlDb.init, h]

/-- Witness for the amended C4 at a concrete failing URL. -/
theorem construction_failure_wrapping_witness :
    SqlAlchemyDb.init "not-a-url" "public" =
      .error (.argumentError ("Could not parse SQLAlchemy URL from string " ++
        "not-a-url")) ∧
    PostgreSqlDb.init "not-a-url" "public" =
      .error (.pgBuildingWrapped (.argumentError
        ("Could not parse SQLAlchemy URL from string " ++ "not-a-url"))) := by
  have h := construction_failure_wrapping "not-a-url" "public"
    (.argumentError ("Could not parse SQLAlchemy URL from string " ++ "not-a-url")) rfl
  exact ⟨h.1, h.2.1⟩

lemma safe_ne_plus (b : Nat) (h : isAlwaysSafeByte b = true) : (b == 43) = false := by
  cases hb : (b == 43) with
  | false => rfl
  | true =>
      have hbe : b = 43 := eq_of_beq hb
      subst hbe
      simp [isAlwaysSafeByte] at h

lemma safe_ne_pct (b : Nat) (h : isAlwaysSafeByte b = true) : (b == 37) = false := by
  cases hb : (b == 37) with
  | false => rfl
  | true =>
      have hbe : b = 37 := eq_of_beq hb
      subst hbe
      simp [isAlwaysSafeByte] at h

lemma unquote_cons_plain (b : Nat) (l : List Nat) (h43 : (b == 43) = false)
    (h37 : (b == 37) = false) :
    unquotePlusBytes (b :: l) = b :: unquotePlusBytes l := by
  match l with
  | [] => simp [unquotePlusBytes, h43, h37]
  | [x] => simp [unquotePlusBytes, h43, h37]
  | x :: y :: rest => simp [unquotePlusBytes, h43, h37]

lemma unquote_cons_plus (l : List Nat) :
    unquotePlusBytes (43 :: l) = 32 :: unquotePlusBytes l := by
  match l with
  | [] => simp [unquotePlusBytes]
  | [x] => simp [unquotePlusBytes]
  | x :: y :: rest => simp [unquotePlusBytes]

lemma unquote_pct (d1 d2 : Nat) (l : List Nat) (hh1 : isHexDigitByte d1 = true)
    (hh2 : isHexDigitByte d2 = true) :
    unquotePlusBytes (37 :: d1 :: d2 :: l) =
      (hexVal d1 * 16 + hexVal d2) :: unquotePlusBytes l := by
  simp [unquotePlusBytes, hh1, hh2]

lemma isHexDigitByte_hexDigitUpper : ∀ n, n < 16 → isHexDigitByte (hexDigitUpper n) = true := by
  decide

lemma hexVal_hexDigitUpper : ∀ n, n < 16 → hexVal (hexDigitUpper n) = n := by
  decide

/-- C9: the percent-encoding `build()` applies to the password
(`urllib.parse.quote_plus`) round-trips on every byte string — in particular
on passwords containing URL-reserved bytes such as `@` and `/` — so decoding
the password component embedded in the produced connection URL yields exactly
the original password.  (The encoder's output contains no raw `:`, `@` or `/`
bytes — those are all percent-encoded — so the password component of the URL
is exactly the encoder's output.) -/
theorem quote_plus_roundtrips (s : List Nat) (h : ∀ b ∈ s, b < 256) :
    unquotePlusBytes (quotePlusBytes s) = s := by
  induction s with
  | nil => rfl
  | cons b rest ih =>
      have hb : b < 256 := h b (List.mem_cons_self b rest)
      have hrest : ∀ x ∈ rest, x < 256 := fun x hx => h x (List.mem_cons_of_mem b hx)
      rw [quotePlusBytes]
      by_cases hsafe : isAlwaysSafeByte b = true
      · rw [quotePlusByte, if_pos hsafe, List.singleton_append,
          unquote_cons_plain b _ (safe_ne_plus b hsafe) (safe_ne_pct b hsafe), ih hrest]
      · rw [quotePlusByte, if_neg hsafe]
        cases h32 : (b == 32) with
        | true =>
            have hbe : b = 32 := eq_of_beq h32
            rw [if_pos rfl, List.singleton_append, unquote_cons_plus, ih hrest, hbe]
        | false =>
            rw [if_neg (by simp)]
            have hdiv : b / 16 < 16 := by omega
            have hmod : b % 16 < 16 := by omega
            rw [List.cons_append, List.cons_append, List.cons_append, List.nil_append,
              unquote_pct _ _ _ (isHexDigitByte_hexDigitUpper _ hdiv)
                (isHexDigitByte_hexDigitUpper _ hmod),
              hexVal_hexDigitUpper _ hdiv, hexVal_hexDigitUpper _ hmod, ih hrest]
            congr 1
            omega

/-- Witness for C9 at the spec's example password `p@ss/word`
(bytes `112 64 115 115 47 119 111 114 100`). -/
theorem quote_plus_roundtrips_witness :
    unquotePlusBytes (quotePlusBytes [112, 64, 115, 115, 47, 119, 111, 114, 100]) =
      [112, 64, 115, 115, 47, 119, 111, 114, 100] :=
  quote_plus_roundtrips [112, 64, 115, 115, 47, 119, 111, 114, 100] (by decide)

end SqlRepo
